import Mathlib

/-!
Shallow embedding of the offline-first food-entry store
(`frontend/src/store/foodStore.ts`) of the Food-Tracker repository.

The store keeps an in-memory view (`entries`, `summary`, `selectedDate`)
and a persistent local cache with two backends:
  * SQLite on mobile (`food_entries_cache` table with an AUTOINCREMENT
    `id` primary key and a `synced` flag), and
  * a `localStorage` JSON array on web (no persisted sync flag).
Remote calls (`api.get/post/delete`) are modelled as explicit
`Except RemoteErr _` parameters / oracles; the value a function receives
is the outcome of the corresponding remote call.  Operations that
re-raise an error to the caller return it as an `Option RemoteErr`
component; `none` means the operation returned normally.
-/

namespace FoodTracker

/-- Remote failure taxonomy; the store rethrows whatever it receives,
so a small enumeration suffices. -/
inductive RemoteErr where
  | network
  | server
  | validation
  | notFound
deriving DecidableEq

/-- The `FoodEntry` interface of `foodStore.ts`.  JS numbers for macro
values are modelled as `Int`; the ISO `created_at` string is modelled as
a millisecond timestamp (ISO-8601 strings compare the same way). -/
structure FoodEntry where
  id : Nat
  food_name : String
  calories : Int
  protein : Int
  carbs : Int
  fats : Int
  serving_size : Option String
  image_url : Option String
  entry_date : String
  created_at : Nat
deriving DecidableEq

/-- `Omit<FoodEntry, 'id' | 'created_at'>`: the draft passed to
`addEntry` / `cacheEntry`, and also the POST body sent by
`syncOfflineEntries` (which copies exactly these fields). -/
structure EntryDraft where
  food_name : String
  calories : Int
  protein : Int
  carbs : Int
  fats : Int
  serving_size : Option String
  image_url : Option String
  entry_date : String
deriving DecidableEq

/-- The POST body `syncOfflineEntries` builds from a cached entry:
everything except `id` and `created_at`. -/
def draftOf (e : FoodEntry) : EntryDraft :=
  { food_name := e.food_name, calories := e.calories, protein := e.protein
    carbs := e.carbs, fats := e.fats, serving_size := e.serving_size
    image_url := e.image_url, entry_date := e.entry_date }

/-- Build a `FoodEntry` from a draft plus an identifier and a creation
timestamp (the shape `cacheEntry` builds with `id: Date.now()` and
`created_at: now`, and the shape the SQLite insert produces with the
AUTOINCREMENT row id). -/
def mkEntry (d : EntryDraft) (id : Nat) (now : Nat) : FoodEntry :=
  { id := id, food_name := d.food_name, calories := d.calories
    protein := d.protein, carbs := d.carbs, fats := d.fats
    serving_size := d.serving_size, image_url := d.image_url
    entry_date := d.entry_date, created_at := now }

/-- The `MacroSummary` interface of `foodStore.ts`. -/
structure MacroSummary where
  date : String
  calories : Int
  protein : Int
  carbs : Int
  fats : Int
  calorie_goal : Int
  protein_goal : Int
  carb_goal : Int
  fat_goal : Int
deriving DecidableEq

/-- One row of the SQLite `food_entries_cache` table: the entry columns
plus the `synced` flag (`synced = 0` ↦ `false` = pending). -/
structure CacheRow where
  entry : FoodEntry
  synced : Bool
deriving DecidableEq

/-- The SQLite cache: its rows plus the AUTOINCREMENT sequence value
(the id the next plain INSERT will receive). -/
structure SqliteDB where
  rows : List CacheRow
  nextId : Nat
deriving DecidableEq

/-- The in-memory zustand state (`entries`, `summary`, `isLoading`,
`selectedDate`). -/
structure FoodState where
  entries : List FoodEntry
  summary : Option MacroSummary
  isLoading : Bool
  selectedDate : String
deriving DecidableEq

/-! ### Local cache primitives -/

/-- Stable insertion into a list kept in descending `created_at` order. -/
def insertDesc (e : FoodEntry) : List FoodEntry → List FoodEntry
  | [] => [e]
  | x :: xs =>
      if e.created_at ≤ x.created_at then x :: insertDesc e xs
      else e :: x :: xs

/-- Sort entries by `created_at`, most recent first (the
`ORDER BY created_at DESC` of the SQLite query and the
`sort((a, b) => ...)` of the web branch). -/
def sortDesc : List FoodEntry → List FoodEntry
  | [] => []
  | x :: xs => insertDesc x (sortDesc xs)

/-- `cacheEntryLocally`, SQLite branch: `INSERT OR REPLACE` by primary
key with `synced = 1`; the AUTOINCREMENT sequence never goes below an
explicitly inserted id. -/
def sqliteUpsert (db : SqliteDB) (e : FoodEntry) : SqliteDB :=
  { rows := db.rows.filter (fun r => r.entry.id != e.id) ++ [⟨e, true⟩]
    nextId := max db.nextId (e.id + 1) }

/-- `cacheEntryLocally`, web branch: `findIndex` by id, replace in place
if found, otherwise `push`. -/
def webUpsert (cache : List FoodEntry) (e : FoodEntry) : List FoodEntry :=
  match cache.findIdx? (fun x => x.id == e.id) with
  | some i => cache.set i e
  | none => cache ++ [e]

/-- `getCachedEntries`, SQLite branch:
`SELECT * FROM food_entries_cache WHERE entry_date = ? ORDER BY created_at DESC`. -/
def sqliteGetCached (db : SqliteDB) (date : String) : List FoodEntry :=
  sortDesc ((db.rows.filter (fun r => r.entry.entry_date == date)).map CacheRow.entry)

/-- `getCachedEntries`, web branch: filter the cached array by date and
sort by `created_at` descending. -/
def webGetCached (cache : List FoodEntry) (date : String) : List FoodEntry :=
  sortDesc (cache.filter (fun e => e.entry_date == date))

/-- `cacheEntry`, SQLite branch: plain INSERT (no id column, so the
AUTOINCREMENT id is used, not the `Date.now()` placeholder) with
`synced = 0`. -/
def sqliteCacheEntry (db : SqliteDB) (draft : EntryDraft) (now : Nat) : SqliteDB :=
  { rows := db.rows ++ [⟨mkEntry draft db.nextId now, false⟩]
    nextId := db.nextId + 1 }

/-- `cacheEntry`, web branch: push `{ id: Date.now(), ...entry,
created_at: now }` onto the cached array. -/
def webCacheEntry (cache : List FoodEntry) (draft : EntryDraft) (now : Nat) :
    List FoodEntry :=
  cache ++ [mkEntry draft now now]

/-! ### Store operations -/

/-- `fetchEntries` on the SQLite backend.  `remote` is the outcome of
`api.get('/food/entries?date=...')`.  On success the response replaces
the in-memory `entries` and every returned entry is cached via
`cacheEntryLocally`; on failure the in-memory `entries` are loaded from
the cache and no error is re-raised (the `catch` only logs). -/
def fetchEntriesSq (st : FoodState) (db : SqliteDB) (date? : Option String)
    (remote : Except RemoteErr (List FoodEntry)) :
    FoodState × SqliteDB × Option RemoteErr :=
  let targetDate := date?.getD st.selectedDate
  match remote with
  | .ok data =>
      ({ st with entries := data, isLoading := false },
       data.foldl sqliteUpsert db, none)
  | .error _ =>
      ({ st with entries := sqliteGetCached db targetDate, isLoading := false },
       db, none)

/-- `fetchEntries` on the web backend. -/
def fetchEntriesWeb (st : FoodState) (cache : List FoodEntry) (date? : Option String)
    (remote : Except RemoteErr (List FoodEntry)) :
    FoodState × List FoodEntry × Option RemoteErr :=
  let targetDate := date?.getD st.selectedDate
  match remote with
  | .ok data =>
      ({ st with entries := data, isLoading := false },
       data.foldl webUpsert cache, none)
  | .error _ =>
      ({ st with entries := webGetCached cache targetDate, isLoading := false },
       cache, none)

/-- The accumulator of the `reduce` in `fetchSummary`'s fallback. -/
structure Totals where
  calories : Int
  protein : Int
  carbs : Int
  fats : Int
deriving DecidableEq

/-- The accumulating step of the `reduce` in `fetchSummary`. -/
def totalsStep (acc : Totals) (e : FoodEntry) : Totals :=
  { calories := acc.calories + e.calories
    protein := acc.protein + e.protein
    carbs := acc.carbs + e.carbs
    fats := acc.fats + e.fats }

/-- The `reduce` of `fetchSummary`: fold over ALL in-memory entries
(the code does not filter by date), summing the four macro fields. -/
def totalsOf (entries : List FoodEntry) : Totals :=
  entries.foldl totalsStep { calories := 0, protein := 0, carbs := 0, fats := 0 }

/-- `fetchSummary` (backend-independent: it touches only the in-memory
state).  `remote` is the outcome of `api.get('/dashboard/summary?...')`.
On success the response is stored as `summary`; on failure the fallback
sums the macro fields of every in-memory entry and pairs them with the
hard-coded goals 2000 / 150 / 200 / 65.  No error is re-raised. -/
def fetchSummaryModel (st : FoodState) (date? : Option String)
    (remote : Except RemoteErr MacroSummary) : FoodState :=
  let targetDate := date?.getD st.selectedDate
  match remote with
  | .ok data => { st with summary := some data }
  | .error _ =>
      let t := totalsOf st.entries
      let fallback : MacroSummary :=
        { date := targetDate
          calories := t.calories, protein := t.protein
          carbs := t.carbs, fats := t.fats
          calorie_goal := 2000, protein_goal := 150
          carb_goal := 200, fat_goal := 65 }
      { st with summary := some fallback }

/-- `addEntry` on the SQLite backend.  `remoteCreate` is the outcome of
`api.post('/food/entries', entry)`; `remoteSummary` feeds the
`fetchSummary` refresh of the success path; `now` is the wall clock
read by `cacheEntry`.  The failure path caches via `cacheEntry` and
re-raises (`throw error`). -/
def addEntrySq (st : FoodState) (db : SqliteDB) (draft : EntryDraft) (now : Nat)
    (remoteCreate : Except RemoteErr FoodEntry)
    (remoteSummary : Except RemoteErr MacroSummary) :
    FoodState × SqliteDB × Option RemoteErr :=
  match remoteCreate with
  | .ok newEntry =>
      let st1 := { st with entries := newEntry :: st.entries }
      let st2 := fetchSummaryModel st1 none remoteSummary
      (st2, sqliteUpsert db newEntry, none)
  | .error e =>
      (st, sqliteCacheEntry db draft now, some e)

/-- `addEntry` on the web backend. -/
def addEntryWeb (st : FoodState) (cache : List FoodEntry) (draft : EntryDraft)
    (now : Nat) (remoteCreate : Except RemoteErr FoodEntry)
    (remoteSummary : Except RemoteErr MacroSummary) :
    FoodState × List FoodEntry × Option RemoteErr :=
  match remoteCreate with
  | .ok newEntry =>
      let st1 := { st with entries := newEntry :: st.entries }
      let st2 := fetchSummaryModel st1 none remoteSummary
      (st2, webUpsert cache newEntry, none)
  | .error e =>
      (st, webCacheEntry cache draft now, some e)

/-- `deleteEntry` on the SQLite backend.  The code calls
`api.delete('/food/entries/' + id)` unconditionally (there is no
pending check); the third component records the identifiers sent to the
remote delete endpoint during the call.  On success only the in-memory
`entries` array is filtered (the local cache is never touched) and
`fetchSummary` refreshes; on failure the error is re-raised. -/
def deleteEntrySq (st : FoodState) (db : SqliteDB) (id : Nat)
    (remoteDelete : Except RemoteErr Unit)
    (remoteSummary : Except RemoteErr MacroSummary) :
    FoodState × SqliteDB × List Nat × Option RemoteErr :=
  match remoteDelete with
  | .ok _ =>
      let st1 := { st with entries := st.entries.filter (fun e => e.id != id) }
      (fetchSummaryModel st1 none remoteSummary, db, [id], none)
  | .error e =>
      (st, db, [id], some e)

/-- One iteration of the `syncOfflineEntries` loop on the SQLite
backend: POST the entry's content; on success
`UPDATE food_entries_cache SET synced = 1 WHERE id = ?`; on failure log
and continue. -/
def syncStep (create : FoodEntry → Except RemoteErr FoodEntry)
    (cur : List CacheRow) (r : CacheRow) : List CacheRow :=
  match create r.entry with
  | .ok _ =>
      cur.map (fun x => if x.entry.id = r.entry.id then ⟨x.entry, true⟩ else x)
  | .error _ => cur

/-- The `for (const entry of unsynced)` loop of `syncOfflineEntries`,
SQLite backend: the unsynced snapshot is `SELECT * ... WHERE synced = 0`,
taken before the loop. -/
def syncLoopRows (create : FoodEntry → Except RemoteErr FoodEntry)
    (rows : List CacheRow) : List CacheRow :=
  (rows.filter (fun r => !r.synced)).foldl (syncStep create) rows

/-- `syncOfflineEntries` on the SQLite backend.  `create` is the remote
create oracle for the loop; `fetchRemote` / `summaryRemote` feed the
`fetchEntries()` / `fetchSummary()` refresh after the loop.  The third
component is the list of POST bodies sent during the loop: one create
per unsynced row, in order. -/
def syncOfflineEntriesSq (st : FoodState) (db : SqliteDB)
    (create : FoodEntry → Except RemoteErr FoodEntry)
    (fetchRemote : Except RemoteErr (List FoodEntry))
    (summaryRemote : Except RemoteErr MacroSummary) :
    FoodState × SqliteDB × List EntryDraft :=
  let unsynced := db.rows.filter (fun r => !r.synced)
  let db1 : SqliteDB := { db with rows := syncLoopRows create db.rows }
  let creates := unsynced.map (fun r => draftOf r.entry)
  let res := fetchEntriesSq st db1 none fetchRemote
  let st2 := fetchSummaryModel res.1 none summaryRemote
  (st2, res.2.1, creates)

/-- The unsynced selection of `syncOfflineEntries` on the web backend:
`allEntries.filter((e) => !e.id || e.id < 1000000000000)` (the code
comments this `// Temp IDs`). -/
def webUnsynced (cache : List FoodEntry) : List FoodEntry :=
  cache.filter (fun e => e.id == 0 || decide (e.id < 1000000000000))

/-- One iteration of the `syncOfflineEntries` loop on the web backend:
on success, replace the row with the matching id by the server
response. -/
def webSyncStep (create : FoodEntry → Except RemoteErr FoodEntry)
    (cur : List FoodEntry) (u : FoodEntry) : List FoodEntry :=
  match create u with
  | .ok resp =>
      match cur.findIdx? (fun e => e.id == u.id) with
      | some i => cur.set i resp
      | none => cur
  | .error _ => cur

/-- `syncOfflineEntries` on the web backend. -/
def syncOfflineEntriesWeb (st : FoodState) (cache : List FoodEntry)
    (create : FoodEntry → Except RemoteErr FoodEntry)
    (fetchRemote : Except RemoteErr (List FoodEntry))
    (summaryRemote : Except RemoteErr MacroSummary) :
    FoodState × List FoodEntry × List EntryDraft :=
  let unsynced := webUnsynced cache
  let cache1 := unsynced.foldl (webSyncStep create) cache
  let creates := unsynced.map draftOf
  let res := fetchEntriesWeb st cache1 none fetchRemote
  let st2 := fetchSummaryModel res.1 none summaryRemote
  (st2, res.2.1, creates)

/-! ### Sample data used in concrete scenarios -/

/-- A sample entry with the given id, name, calories, date and creation
timestamp; the remaining macro fields are zero. -/
def mkSample (id : Nat) (name : String) (cal : Int) (date : String)
    (created : Nat) : FoodEntry :=
  { id := id, food_name := name, calories := cal, protein := 0, carbs := 0
    fats := 0, serving_size := none, image_url := none, entry_date := date
    created_at := created }

/-- An empty in-memory state selecting 2024-05-01. -/
def st0 : FoodState :=
  { entries := [], summary := none, isLoading := false
    selectedDate := "2024-05-01" }

/-- Does the remote create oracle succeed on this cached row's entry? -/
def createOk (create : FoodEntry → Except RemoteErr FoodEntry) (r : CacheRow) : Bool :=
  match create r.entry with
  | .ok _ => true
  | .error _ => false

/-- Do all entries of a (successful) fetch response carry identifiers
distinct from every identifier already cached?  (The usual situation:
server identifiers are assigned by the remote table, cache-local
identifiers come from AUTOINCREMENT / `Date.now()`.) -/
def freshFor (fetchRemote : Except RemoteErr (List FoodEntry)) (db : SqliteDB) : Bool :=
  match fetchRemote with
  | .ok l => l.all (fun e => db.rows.all (fun r => r.entry.id != e.id))
  | .error _ => true

/-! ### Helper lemmas -/

theorem mem_insertDesc (e a : FoodEntry) (l : List FoodEntry) :
    a ∈ insertDesc e l ↔ a = e ∨ a ∈ l := by
  induction l with
  | nil => simp [insertDesc]
  | cons x xs ih =>
      by_cases h : e.created_at ≤ x.created_at
      · simp only [insertDesc, if_pos h, List.mem_cons, ih]
        tauto
      · simp [insertDesc, h]

theorem mem_sortDesc (a : FoodEntry) (l : List FoodEntry) :
    a ∈ sortDesc l ↔ a ∈ l := by
  induction l with
  | nil => simp [sortDesc]
  | cons x xs ih => simp [sortDesc, mem_insertDesc, ih]

theorem mem_sqliteGetCached (db : SqliteDB) (d : String) (x : FoodEntry) :
    x ∈ sqliteGetCached db d ↔ ∃ r ∈ db.rows, r.entry = x ∧ x.entry_date = d := by
  simp only [sqliteGetCached, mem_sortDesc, List.mem_map, List.mem_filter,
    beq_iff_eq]
  constructor
  · rintro ⟨r, ⟨hr, hd⟩, rfl⟩
    exact ⟨r, hr, rfl, hd⟩
  · rintro ⟨r, hr, rfl, hd⟩
    exact ⟨r, ⟨hr, hd⟩, rfl⟩

theorem mem_webGetCached (cache : List FoodEntry) (d : String) (x : FoodEntry) :
    x ∈ webGetCached cache d ↔ x ∈ cache ∧ x.entry_date = d := by
  simp [webGetCached, mem_sortDesc, List.mem_filter]

theorem mem_sqliteUpsert (db : SqliteDB) (e : FoodEntry) (r : CacheRow) :
    r ∈ (sqliteUpsert db e).rows ↔
      (r ∈ db.rows ∧ r.entry.id ≠ e.id) ∨ r = ⟨e, true⟩ := by
  simp [sqliteUpsert, List.mem_filter, bne_iff_ne]

theorem foldlUpsert_preserve (data : List FoodEntry) (db : SqliteDB) (r : CacheRow)
    (hr : r ∈ db.rows) (h : ∀ e ∈ data, e.id ≠ r.entry.id) :
    r ∈ (data.foldl sqliteUpsert db).rows := by
  induction data generalizing db with
  | nil => simpa using hr
  | cons e es ih =>
      rw [List.foldl_cons]
      refine ih (sqliteUpsert db e) ?_ (fun e' he' => h e' (List.mem_cons_of_mem _ he'))
      exact (mem_sqliteUpsert db e r).mpr
        (Or.inl ⟨hr, fun hh => (h e (List.mem_cons_self _ _)) hh.symm⟩)

theorem foldlUpsert_pending_mem (data : List FoodEntry) (db : SqliteDB) (r : CacheRow)
    (hr : r ∈ (data.foldl sqliteUpsert db).rows) (hs : r.synced = false) :
    r ∈ db.rows := by
  induction data generalizing db with
  | nil => simpa using hr
  | cons e es ih =>
      have h1 : r ∈ (sqliteUpsert db e).rows := ih (sqliteUpsert db e) (by simpa using hr)
      rcases (mem_sqliteUpsert db e r).mp h1 with ⟨h2, _⟩ | rfl
      · exact h2
      · simp at hs

theorem foldlUpsert_no_pending (data : List FoodEntry) (db : SqliteDB)
    (h : db.rows.filter (fun r => !r.synced) = []) :
    ((data.foldl sqliteUpsert db).rows.filter (fun r => !r.synced)) = [] := by
  rw [List.filter_eq_nil_iff] at h ⊢
  intro r hr hpend
  have hs : r.synced = false := by simpa using hpend
  exact h r (foldlUpsert_pending_mem data db r hr hs) (by simpa)

theorem mem_foldlUpsert (data : List FoodEntry) (db : SqliteDB) (r : CacheRow)
    (h : (data.map FoodEntry.id).Nodup) :
    r ∈ (data.foldl sqliteUpsert db).rows ↔
      ((∃ e ∈ data, r = ⟨e, true⟩) ∨
        (r ∈ db.rows ∧ r.entry.id ∉ data.map FoodEntry.id)) := by
  induction data generalizing db with
  | nil => simp
  | cons e es ih =>
      have hnd : (es.map FoodEntry.id).Nodup := (List.nodup_cons.mp (by simpa using h)).2
      have hid : e.id ∉ es.map FoodEntry.id := (List.nodup_cons.mp (by simpa using h)).1
      rw [List.foldl_cons, ih (sqliteUpsert db e) hnd]
      simp only [List.map_cons, List.mem_cons, mem_sqliteUpsert]
      constructor
      · rintro (⟨e', he', rfl⟩ | ⟨⟨hdb, hne⟩ | rfl, hnot⟩)
        · exact Or.inl ⟨e', Or.inr he', rfl⟩
        · exact Or.inr ⟨hdb, by simp [hne, hnot]⟩
        · exact Or.inl ⟨e, Or.inl rfl, rfl⟩
      · rintro (⟨e', rfl | he', rfl⟩ | ⟨hdb, hnot⟩)
        · exact Or.inr ⟨Or.inr rfl, by simpa using hid⟩
        · exact Or.inl ⟨e', he', rfl⟩
        · have h1 : r.entry.id ≠ e.id := fun hh => hnot (Or.inl hh)
          have h2 : r.entry.id ∉ es.map FoodEntry.id := fun hh => hnot (Or.inr hh)
          exact Or.inr ⟨Or.inl ⟨hdb, h1⟩, h2⟩

theorem foldl_syncStep_eq_map (create : FoodEntry → Except RemoteErr FoodEntry)
    (todo : List CacheRow) :
    ∀ cur : List CacheRow, todo.foldl (syncStep create) cur =
      cur.map (fun x =>
        if x.entry.id ∈ (todo.filter (createOk create)).map (fun r => r.entry.id)
        then ⟨x.entry, true⟩ else x) := by
  induction todo with
  | nil => intro cur; simp
  | cons r todo ih =>
      intro cur
      rw [List.foldl_cons, ih]
      cases hc : create r.entry with
      | error err =>
          have hok : createOk create r = false := by simp [createOk, hc]
          have hstep : syncStep create cur r = cur := by simp [syncStep, hc]
          rw [hstep, List.filter_cons, hok]
          simp
      | ok v =>
          have hok : createOk create r = true := by simp [createOk, hc]
          have hstep : syncStep create cur r =
              cur.map (fun x => if x.entry.id = r.entry.id then ⟨x.entry, true⟩ else x) := by
            simp [syncStep, hc]
          rw [hstep, List.map_map, List.filter_cons, hok]
          simp only [if_pos]
          congr 1
          funext x
          by_cases hx : x.entry.id = r.entry.id
          · simp [Function.comp, hx]
          · simp only [Function.comp_apply, List.map_cons, List.mem_cons, if_neg hx]
            by_cases hmem :
                x.entry.id ∈ (todo.filter (createOk create)).map (fun r => r.entry.id)
            · rw [if_pos hmem, if_pos (Or.inr hmem)]
            · rw [if_neg hmem, if_neg (fun hc2 => hc2.elim hx hmem)]

/-- `createOk` depends only on the row's entry. -/
theorem createOk_entry (create : FoodEntry → Except RemoteErr FoodEntry)
    (r s : CacheRow) (h : r.entry = s.entry) :
    createOk create r = createOk create s := by
  unfold createOk
  rw [h]

/-- The sync loop flips the `synced` flag of exactly those pending rows
whose remote create succeeds, leaving every row's entry (identifier
included) untouched. -/
theorem syncLoopRows_eq_map (create : FoodEntry → Except RemoteErr FoodEntry)
    (rows : List CacheRow) (h : (rows.map (fun r => r.entry.id)).Nodup) :
    syncLoopRows create rows =
      rows.map (fun r =>
        if r.synced = false ∧ createOk create r = true then ⟨r.entry, true⟩ else r) := by
  unfold syncLoopRows
  rw [foldl_syncStep_eq_map]
  refine List.map_congr_left ?_
  intro x hx
  by_cases hcond : x.synced = false ∧ createOk create x = true
  · have hxf : x ∈ (rows.filter (fun r => !r.synced)).filter (createOk create) := by
      refine List.mem_filter.mpr ⟨List.mem_filter.mpr ⟨hx, ?_⟩, hcond.2⟩
      simp [hcond.1]
    exact (if_pos (List.mem_map.mpr ⟨x, hxf, rfl⟩)).trans (if_pos hcond).symm
  · refine (if_neg ?_).trans (if_neg hcond).symm
    intro hmem
    obtain ⟨y, hyf, hid⟩ := List.mem_map.mp hmem
    have hy1 := List.mem_filter.mp hyf
    have hy2 := List.mem_filter.mp hy1.1
    have hxy : y = x :=
      List.inj_on_of_nodup_map h hy2.1 hx hid
    refine hcond ?_
    subst hxy
    exact ⟨by simpa using hy2.2, hy1.2⟩

theorem syncLoopRows_pending_success (create : FoodEntry → Except RemoteErr FoodEntry)
    (rows : List CacheRow) (h : (rows.map (fun r => r.entry.id)).Nodup)
    (r : CacheRow) (hr : r ∈ rows) (hp : r.synced = false)
    (hok : createOk create r = true) :
    (⟨r.entry, true⟩ : CacheRow) ∈ syncLoopRows create rows ∧
      (⟨r.entry, false⟩ : CacheRow) ∉ syncLoopRows create rows := by
  rw [syncLoopRows_eq_map create rows h]
  constructor
  · refine List.mem_map.mpr ⟨r, hr, ?_⟩
    rw [if_pos ⟨hp, hok⟩]
  · intro hmem
    obtain ⟨y, hy, hgy⟩ := List.mem_map.mp hmem
    by_cases hcond : y.synced = false ∧ createOk create y = true
    · rw [if_pos hcond] at hgy
      simpa using congrArg CacheRow.synced hgy
    · rw [if_neg hcond] at hgy
      refine hcond ?_
      subst hgy
      exact ⟨rfl, (createOk_entry create ⟨r.entry, false⟩ r rfl).trans hok⟩

theorem syncLoopRows_pending_failure (create : FoodEntry → Except RemoteErr FoodEntry)
    (rows : List CacheRow) (h : (rows.map (fun r => r.entry.id)).Nodup)
    (r : CacheRow) (hr : r ∈ rows) (hp : r.synced = false)
    (hfail : createOk create r = false) :
    (⟨r.entry, false⟩ : CacheRow) ∈ syncLoopRows create rows := by
  rw [syncLoopRows_eq_map create rows h]
  refine List.mem_map.mpr ⟨r, hr, ?_⟩
  rw [if_neg (fun hc => by rw [hfail] at hc; exact Bool.false_ne_true hc.2)]
  cases r
  simp_all

/-- When every pending row's create succeeds, the loop leaves no
pending row. -/
theorem syncLoopRows_no_pending (create : FoodEntry → Except RemoteErr FoodEntry)
    (rows : List CacheRow) (h : (rows.map (fun r => r.entry.id)).Nodup)
    (hall : ∀ r ∈ rows, r.synced = false → createOk create r = true) :
    (syncLoopRows create rows).filter (fun r => !r.synced) = [] := by
  rw [syncLoopRows_eq_map create rows h, List.filter_eq_nil_iff]
  intro y hy
  obtain ⟨x, hx, hgx⟩ := List.mem_map.mp hy
  by_cases hcond : x.synced = false ∧ createOk create x = true
  · rw [if_pos hcond] at hgx
    subst hgx
    simp
  · rw [if_neg hcond] at hgx
    subst hgx
    cases hs : x.synced with
    | true => simp [hs]
    | false => exact absurd ⟨hs, hall x hx hs⟩ hcond

/-- The fold of `fetchSummary`'s fallback computes, in each field, the
sum of that macro over the folded entries. -/
theorem totalsOf_eq_sums (l : List FoodEntry) :
    totalsOf l =
      { calories := (l.map FoodEntry.calories).sum
        protein := (l.map FoodEntry.protein).sum
        carbs := (l.map FoodEntry.carbs).sum
        fats := (l.map FoodEntry.fats).sum } := by
  have aux : ∀ (l : List FoodEntry) (acc : Totals),
      l.foldl totalsStep acc =
        { calories := acc.calories + (l.map FoodEntry.calories).sum
          protein := acc.protein + (l.map FoodEntry.protein).sum
          carbs := acc.carbs + (l.map FoodEntry.carbs).sum
          fats := acc.fats + (l.map FoodEntry.fats).sum } := by
    intro l
    induction l with
    | nil => intro acc; simp
    | cons e es ih =>
        intro acc
        rw [List.foldl_cons, ih]
        simp only [totalsStep, List.map_cons, List.sum_cons, Totals.mk.injEq]
        refine ⟨?_, ?_, ?_, ?_⟩ <;> ring
  rw [totalsOf, aux]
  simp

/-! ### Concrete scenario data -/

/-- A server-confirmed entry: identifier 42 assigned by the remote
SERIAL column, far below `10^12`. -/
def c2conf : FoodEntry := mkSample 42 "apple" 95 "2024-05-01" 1000

/-- A pending offline entry: its placeholder identifier is a
`Date.now()` millisecond timestamp (October 2025), above `10^12`. -/
def c2pend : FoodEntry := mkSample 1761000000000 "offline" 200 "2024-05-01" 1761000000000

/-- A cached pending row with local identifier 7. -/
def c5pend : FoodEntry := mkSample 7 "pend" 50 "2024-05-01" 70

/-- A SQLite cache holding only the pending row `c5pend`. -/
def c5db : SqliteDB := ⟨[⟨c5pend, false⟩], 8⟩

/-- A cached confirmed row with server identifier 9. -/
def c6conf : FoodEntry := mkSample 9 "conf" 60 "2024-05-01" 90

/-- A SQLite cache holding only the confirmed row `c6conf`. -/
def c6db : SqliteDB := ⟨[⟨c6conf, true⟩], 10⟩

/-- An in-memory entry dated 2024-05-02 with 100 calories. -/
def c7entry : FoodEntry := mkSample 3 "banana" 100 "2024-05-02" 10

/-- A remote summary for 2024-05-01 carrying non-default goal values. -/
def c7goals : MacroSummary := ⟨"2024-05-01", 500, 1, 2, 3, 1800, 160, 210, 70⟩

/-- A stale confirmed cache row (identifier 5) the remote list no
longer returns. -/
def c1stale : FoodEntry := mkSample 5 "stale" 10 "2024-05-01" 100

/-- A SQLite cache holding only the stale confirmed row `c1stale`. -/
def c1db : SqliteDB := ⟨[⟨c1stale, true⟩], 6⟩

/-- A remote list response of two confirmed entries for 2024-05-01,
neither with identifier 5. -/
def c1data : List FoodEntry :=
  [mkSample 1 "a" 1 "2024-05-01" 200, mkSample 2 "b" 2 "2024-05-01" 300]

/-- A pending cache row with local identifier 1, used for the sync
identifier scenario. -/
def c3pend : FoodEntry := mkSample 1 "p" 5 "2024-05-01" 100

/-- A SQLite cache holding only the pending row `c3pend`. -/
def c3db : SqliteDB := ⟨[⟨c3pend, false⟩], 2⟩

/-- A remote create oracle that succeeds, returning a confirmed entry
with the server-assigned identifier 42. -/
def c3create : FoodEntry → Except RemoteErr FoodEntry :=
  fun _ => .ok (mkSample 42 "p" 5 "2024-05-01" 500)

/-- Three pending cache rows with local identifiers 1, 2, 3. -/
def c8db : SqliteDB :=
  ⟨[⟨mkSample 1 "a" 1 "2024-05-01" 10, false⟩,
    ⟨mkSample 2 "b" 2 "2024-05-01" 20, false⟩,
    ⟨mkSample 3 "c" 3 "2024-05-01" 30, false⟩], 4⟩

/-- A remote create oracle that fails exactly on the entry with local
identifier 2 and succeeds on the others. -/
def c8create : FoodEntry → Except RemoteErr FoodEntry :=
  fun e => if e.id == 2 then .error .server
    else .ok (mkSample (100 + e.id) e.food_name e.calories e.entry_date 999)

/-- The rows of the cache produced by the full `syncOfflineEntries`
pass on the SQLite backend, split by the outcome of the
`fetchEntries()` refresh. -/
theorem syncSq_rows (st : FoodState) (db : SqliteDB)
    (create : FoodEntry → Except RemoteErr FoodEntry)
    (fr : Except RemoteErr (List FoodEntry)) (sr : Except RemoteErr MacroSummary) :
    (syncOfflineEntriesSq st db create fr sr).2.1.rows =
      match fr with
      | .ok l =>
          (l.foldl sqliteUpsert ⟨syncLoopRows create db.rows, db.nextId⟩).rows
      | .error _ => syncLoopRows create db.rows := by
  cases fr <;> rfl

/-- A successful fetch response with identifiers fresh for the cache
never removes a row and never adds a pending row: pending rows of the
upserted cache are exactly the pending rows before. -/
theorem freshFor_ids (l : List FoodEntry) (db : SqliteDB)
    (h : freshFor (.ok l) db = true) :
    ∀ e ∈ l, ∀ r ∈ db.rows, e.id ≠ r.entry.id := by
  intro e he r hr
  simp only [freshFor, List.all_eq_true, bne_iff_ne] at h
  exact (h e he r hr).symm

/-! ### Claim theorems -/

/-- Claim C2 (code_bug evaluation): on the web backend the unsynced
selection of `syncOfflineEntries` — `filter((e) => !e.id || e.id <
1000000000000)`, commented `// Temp IDs` in the source — picks the
server-confirmed entry (identifier 42) and skips the pending entry
whose `Date.now()` placeholder identifier exceeds `10^12`.  The sync
pass therefore re-submits the confirmed entry as a remote create and
never retries the pending one, contradicting the claim that only
pending entries are submitted, and contradicting the code's own
`// Temp IDs` comment. -/
theorem webSync_submits_confirmed_skips_pending :
    webUnsynced [c2conf, c2pend] = [c2conf] ∧
    (syncOfflineEntriesWeb st0 [c2conf, c2pend] (fun _ => .error .network)
      (.error .network) (.error .network)).2.2 = [draftOf c2conf] ∧
    c2pend ∈ (syncOfflineEntriesWeb st0 [c2conf, c2pend] (fun _ => .error .network)
      (.error .network) (.error .network)).2.1 := by
  decide

/-- Claim C9: when the remote list call fails, `fetchEntries` re-raises
nothing, leaves the cache untouched, and sets the in-memory entries to
exactly the cached entries for the target date (the `listByDate`
result), on both backends. -/
theorem fetchEntries_failure_returns_cache_no_raise (st : FoodState) (db : SqliteDB)
    (cache : List FoodEntry) (date? : Option String) (e : RemoteErr) :
    (fetchEntriesSq st db date? (.error e)).2.2 = none ∧
    (fetchEntriesSq st db date? (.error e)).2.1 = db ∧
    (fetchEntriesSq st db date? (.error e)).1.entries =
      sqliteGetCached db (date?.getD st.selectedDate) ∧
    (∀ x, x ∈ (fetchEntriesSq st db date? (.error e)).1.entries ↔
      ∃ r ∈ db.rows, r.entry = x ∧ x.entry_date = date?.getD st.selectedDate) ∧
    (fetchEntriesWeb st cache date? (.error e)).2.2 = none ∧
    (fetchEntriesWeb st cache date? (.error e)).2.1 = cache ∧
    (fetchEntriesWeb st cache date? (.error e)).1.entries =
      webGetCached cache (date?.getD st.selectedDate) := by
  refine ⟨rfl, rfl, rfl, ?_, rfl, rfl, rfl⟩
  intro x
  exact mem_sqliteGetCached db (date?.getD st.selectedDate) x

/-- Claim C7 counterexample: with one in-memory entry dated 2024-05-02
(100 calories) and goal values 1800/160/210/70 previously fetched for
2024-05-01, a subsequent failing `fetchSummary("2024-05-01")` returns
calories 100 (the wrong-date entry is summed: the code folds over ALL
in-memory entries) paired with the hard-coded goal 2000 (the previously
fetched goals are never reused).  The claim instead demands totals 0
(no entry for the date) and the last cached goal 1800. -/
theorem fetchSummary_fallback_counterexample :
    (fetchSummaryModel
        (fetchSummaryModel { st0 with entries := [c7entry] }
          (some "2024-05-01") (.ok c7goals))
        (some "2024-05-01") (.error .network)).summary =
      some ⟨"2024-05-01", 100, 0, 0, 0, 2000, 150, 200, 65⟩ ∧
    (fetchSummaryModel
        (fetchSummaryModel { st0 with entries := [c7entry] }
          (some "2024-05-01") (.ok c7goals))
        (some "2024-05-01") (.error .network)).summary ≠
      some ⟨"2024-05-01", 0, 0, 0, 0, 1800, 160, 210, 70⟩ := by
  decide

/-- Claim C7 (amended): on remote success `fetchSummary` stores the
returned summary as-is (goal values are not cached for later
fallbacks); on remote failure it returns the sums of the four macro
fields over every in-memory entry regardless of date, paired with the
hard-coded default goals 2000/150/200/65. -/
theorem fetchSummary_success_and_fallback (st : FoodState) (date? : Option String)
    (data : MacroSummary) (e : RemoteErr) :
    fetchSummaryModel st date? (.ok data) = { st with summary := some data } ∧
    (fetchSummaryModel st date? (.error e)).summary =
      some (MacroSummary.mk (date?.getD st.selectedDate)
        (st.entries.map FoodEntry.calories).sum
        (st.entries.map FoodEntry.protein).sum
        (st.entries.map FoodEntry.carbs).sum
        (st.entries.map FoodEntry.fats).sum
        2000 150 200 65) ∧
    (fetchSummaryModel st date? (.error e)).entries = st.entries := by
  refine ⟨rfl, ?_, rfl⟩
  simp [fetchSummaryModel, totalsOf_eq_sums]

/-- Claim C5 counterexample: `deleteEntry(7)` on a cache whose only row
is the pending entry with identifier 7 still issues a remote delete
call (the call log is `[7]`, not `[]`) and leaves the cached row in
place, refuting "deletes the entry locally only ... performs no
RemoteEntryClient call". -/
theorem deleteEntry_pending_counterexample :
    (⟨c5pend, false⟩ : CacheRow) ∈ c5db.rows ∧
    (deleteEntrySq st0 c5db 7 (.error .notFound) (.error .network)).2.2.1 = [7] ∧
    (deleteEntrySq st0 c5db 7 (.error .notFound) (.error .network)).2.2.1 ≠ [] ∧
    (⟨c5pend, false⟩ : CacheRow) ∈
      (deleteEntrySq st0 c5db 7 (.error .notFound) (.error .network)).2.1.rows ∧
    (deleteEntrySq st0 c5db 7 (.error .notFound) (.error .network)).2.2.2 =
      some .notFound := by
  decide

/-- Claim C5 (amended): `deleteEntry(identifier)` always issues exactly
one remote delete call, for every identifier — pending entries
included — and never touches the local cache; the only local removal is
the in-memory entries filter on remote success, and a remote failure is
re-raised with all state unchanged. -/
theorem deleteEntry_always_calls_remote (st : FoodState) (db : SqliteDB) (id : Nat)
    (e : RemoteErr) (rs : Except RemoteErr MacroSummary) :
    ((deleteEntrySq st db id (.ok ()) rs).2.2.1 = [id] ∧
     (deleteEntrySq st db id (.ok ()) rs).2.1 = db ∧
     (deleteEntrySq st db id (.ok ()) rs).1.entries =
       st.entries.filter (fun x => x.id != id) ∧
     (deleteEntrySq st db id (.ok ()) rs).2.2.2 = none) ∧
    ((deleteEntrySq st db id (.error e) rs).2.2.1 = [id] ∧
     (deleteEntrySq st db id (.error e) rs).2.1 = db ∧
     (deleteEntrySq st db id (.error e) rs).1 = st ∧
     (deleteEntrySq st db id (.error e) rs).2.2.2 = some e) := by
  cases rs <;> simp [deleteEntrySq, fetchSummaryModel]

/-- Claim C6 counterexample: deleting the confirmed entry with
identifier 9 succeeds remotely (`none` is raised), yet the row is still
present in the local cache afterwards — refuting "removes the entry
from LocalCacheStore if and only if RemoteEntryClient.delete(identifier)
succeeds". -/
theorem deleteEntry_confirmed_counterexample :
    (⟨c6conf, true⟩ : CacheRow) ∈ c6db.rows ∧
    (deleteEntrySq st0 c6db 9 (.ok ()) (.error .network)).2.2.2 = none ∧
    (⟨c6conf, true⟩ : CacheRow) ∈
      (deleteEntrySq st0 c6db 9 (.ok ()) (.error .network)).2.1.rows := by
  decide

/-- Claim C6 (amended): for a confirmed cached entry, `deleteEntry` on
remote failure raises the error and leaves the in-memory state, the
cache and the entry unchanged; on remote success it removes the entry
from the in-memory entries list only — the LocalCacheStore row is never
removed, on success or failure. -/
theorem deleteEntry_confirmed_semantics (st : FoodState) (db : SqliteDB)
    (ent : FoodEntry) (hconf : (⟨ent, true⟩ : CacheRow) ∈ db.rows)
    (e : RemoteErr) (rs : Except RemoteErr MacroSummary) :
    (deleteEntrySq st db ent.id (.error e) rs).1 = st ∧
    (deleteEntrySq st db ent.id (.error e) rs).2.1 = db ∧
    (deleteEntrySq st db ent.id (.error e) rs).2.2.2 = some e ∧
    (⟨ent, true⟩ : CacheRow) ∈ (deleteEntrySq st db ent.id (.error e) rs).2.1.rows ∧
    (deleteEntrySq st db ent.id (.ok ()) rs).2.2.2 = none ∧
    (deleteEntrySq st db ent.id (.ok ()) rs).1.entries =
      st.entries.filter (fun x => x.id != ent.id) ∧
    (⟨ent, true⟩ : CacheRow) ∈ (deleteEntrySq st db ent.id (.ok ()) rs).2.1.rows := by
  cases rs <;> simp [deleteEntrySq, fetchSummaryModel, hconf]

/-- Claim C6 witness: the amended delete semantics at the concrete
confirmed row `c6conf`. -/
theorem deleteEntry_confirmed_semantics_witness :
    (⟨c6conf, true⟩ : CacheRow) ∈ c6db.rows ∧
    ((deleteEntrySq st0 c6db c6conf.id (.error .server) (.error .network)).1 = st0 ∧
     (deleteEntrySq st0 c6db c6conf.id (.error .server) (.error .network)).2.1 = c6db ∧
     (deleteEntrySq st0 c6db c6conf.id (.error .server) (.error .network)).2.2.2 =
       some .server ∧
     (⟨c6conf, true⟩ : CacheRow) ∈
       (deleteEntrySq st0 c6db c6conf.id (.error .server) (.error .network)).2.1.rows ∧
     (deleteEntrySq st0 c6db c6conf.id (.ok ()) (.error .network)).2.2.2 = none ∧
     (deleteEntrySq st0 c6db c6conf.id (.ok ()) (.error .network)).1.entries =
       st0.entries.filter (fun x => x.id != c6conf.id) ∧
     (⟨c6conf, true⟩ : CacheRow) ∈
       (deleteEntrySq st0 c6db c6conf.id (.ok ()) (.error .network)).2.1.rows) :=
  ⟨by decide,
   deleteEntry_confirmed_semantics st0 c6db c6conf (by decide) .server (.error .network)⟩

/-- Claim C1 counterexample: the cache holds one confirmed row
(identifier 5, date 2024-05-01) and no pending row; a successful fetch
for that date returns two entries with identifiers 1 and 2.  The claim
says the cache for the date afterwards consists of exactly the two
returned entries (there are no pending rows to keep), but the stale
confirmed row with identifier 5 is still cached: `fetchEntries` upserts
by identifier and never deletes. -/
theorem fetchEntries_stale_confirmed_row_survives :
    c1db.rows.filter (fun r => !r.synced) = [] ∧
    (⟨c1stale, true⟩ : CacheRow) ∈ (fetchEntriesSq st0 c1db none (.ok c1data)).2.1.rows ∧
    c1stale ∉ c1data ∧
    c1stale.entry_date = "2024-05-01" := by
  decide

/-- Claim C1 (amended): when `fetchEntries(d)` succeeds, the returned
entries become the in-memory list, no error is raised, and the cache is
updated by per-identifier upsert: afterwards a row is cached iff it is
a returned entry stored as confirmed, or it was already cached — with
pending rows kept as-is — and its identifier is not among the returned
identifiers.  Stale confirmed rows for `d` absent from the response are
retained, not replaced. -/
theorem fetchEntries_success_upsert_merge (st : FoodState) (db : SqliteDB)
    (date? : Option String) (data : List FoodEntry)
    (h : (data.map FoodEntry.id).Nodup) :
    (fetchEntriesSq st db date? (.ok data)).1.entries = data ∧
    (fetchEntriesSq st db date? (.ok data)).2.2 = none ∧
    ∀ r : CacheRow, r ∈ (fetchEntriesSq st db date? (.ok data)).2.1.rows ↔
      ((∃ e ∈ data, r = ⟨e, true⟩) ∨
        (r ∈ db.rows ∧ r.entry.id ∉ data.map FoodEntry.id)) := by
  refine ⟨rfl, rfl, ?_⟩
  intro r
  exact mem_foldlUpsert data db r h

/-- Claim C1 witness: the upsert-merge characterisation at the concrete
stale-row scenario. -/
theorem fetchEntries_success_upsert_merge_witness :
    (c1data.map FoodEntry.id).Nodup ∧
    ((fetchEntriesSq st0 c1db none (.ok c1data)).1.entries = c1data ∧
     (fetchEntriesSq st0 c1db none (.ok c1data)).2.2 = none ∧
     ∀ r : CacheRow, r ∈ (fetchEntriesSq st0 c1db none (.ok c1data)).2.1.rows ↔
       ((∃ e ∈ c1data, r = ⟨e, true⟩) ∨
         (r ∈ c1db.rows ∧ r.entry.id ∉ c1data.map FoodEntry.id))) :=
  ⟨by decide, fetchEntries_success_upsert_merge st0 c1db none c1data (by decide)⟩

/-- Claim C4: when the remote create fails, `addEntry` re-raises the
error after caching the draft as a pending entry under a locally
generated placeholder identifier — the AUTOINCREMENT row id on SQLite
(fresh: distinct from every cached identifier), `Date.now()` on web —
leaving the in-memory state untouched. -/
theorem addEntry_failure_caches_pending (st : FoodState) (db : SqliteDB)
    (cache : List FoodEntry) (draft : EntryDraft) (now : Nat) (e : RemoteErr)
    (rs : Except RemoteErr MacroSummary)
    (hfresh : ∀ r ∈ db.rows, r.entry.id < db.nextId) :
    (addEntrySq st db draft now (.error e) rs).2.2 = some e ∧
    (addEntrySq st db draft now (.error e) rs).1 = st ∧
    (addEntrySq st db draft now (.error e) rs).2.1.rows =
      db.rows ++ [⟨mkEntry draft db.nextId now, false⟩] ∧
    (∀ r ∈ db.rows, r.entry.id ≠ (mkEntry draft db.nextId now).id) ∧
    (addEntryWeb st cache draft now (.error e) rs).2.2 = some e ∧
    (addEntryWeb st cache draft now (.error e) rs).1 = st ∧
    (addEntryWeb st cache draft now (.error e) rs).2.1 =
      cache ++ [mkEntry draft now now] := by
  refine ⟨rfl, rfl, rfl, ?_, rfl, rfl, rfl⟩
  intro r hr
  have h1 := hfresh r hr
  simp only [mkEntry]
  omega

/-- Claim C4 witness: the failure path of `addEntry` at a concrete
cache, draft and timestamp. -/
theorem addEntry_failure_caches_pending_witness :
    (∀ r ∈ c5db.rows, r.entry.id < c5db.nextId) ∧
    ((addEntrySq st0 c5db (draftOf c2pend) 1761000000123 (.error .network)
        (.error .network)).2.2 = some .network ∧
     (addEntrySq st0 c5db (draftOf c2pend) 1761000000123 (.error .network)
        (.error .network)).1 = st0 ∧
     (addEntrySq st0 c5db (draftOf c2pend) 1761000000123 (.error .network)
        (.error .network)).2.1.rows =
       c5db.rows ++ [⟨mkEntry (draftOf c2pend) c5db.nextId 1761000000123, false⟩] ∧
     (∀ r ∈ c5db.rows,
       r.entry.id ≠ (mkEntry (draftOf c2pend) c5db.nextId 1761000000123).id) ∧
     (addEntryWeb st0 [] (draftOf c2pend) 1761000000123 (.error .network)
        (.error .network)).2.2 = some .network ∧
     (addEntryWeb st0 [] (draftOf c2pend) 1761000000123 (.error .network)
        (.error .network)).1 = st0 ∧
     (addEntryWeb st0 [] (draftOf c2pend) 1761000000123 (.error .network)
        (.error .network)).2.1 =
       [] ++ [mkEntry (draftOf c2pend) 1761000000123 1761000000123]) :=
  ⟨by decide,
   addEntry_failure_caches_pending st0 c5db [] (draftOf c2pend) 1761000000123
     .network (.error .network) (by decide)⟩

/-- Claim C10: two `addEntry` calls with the identical draft under a
failing remote append two distinct pending rows (fresh AUTOINCREMENT
identifiers, the creation timestamp of each call), and a later
`syncOfflineEntries` pass submits at least two separate remote creates
with that draft as payload. -/
theorem addEntry_twice_offline_two_rows (st : FoodState) (db : SqliteDB)
    (draft : EntryDraft) (now1 now2 : Nat) (e1 e2 : RemoteErr)
    (rs : Except RemoteErr MacroSummary)
    (create : FoodEntry → Except RemoteErr FoodEntry)
    (fr : Except RemoteErr (List FoodEntry)) (sr : Except RemoteErr MacroSummary) :
    (addEntrySq st (addEntrySq st db draft now1 (.error e1) rs).2.1 draft now2
        (.error e2) rs).2.1.rows =
      db.rows ++ [⟨mkEntry draft db.nextId now1, false⟩,
        ⟨mkEntry draft (db.nextId + 1) now2, false⟩] ∧
    (mkEntry draft db.nextId now1).id ≠ (mkEntry draft (db.nextId + 1) now2).id ∧
    2 ≤ ((syncOfflineEntriesSq st
        (addEntrySq st (addEntrySq st db draft now1 (.error e1) rs).2.1 draft now2
          (.error e2) rs).2.1 create fr sr).2.2.count draft) := by
  refine ⟨?_, ?_, ?_⟩
  · simp [addEntrySq, sqliteCacheEntry]
  · simp only [mkEntry]
    omega
  · show 2 ≤ List.count draft
      ((((db.rows ++ [(⟨mkEntry draft db.nextId now1, false⟩ : CacheRow)]) ++
          [(⟨mkEntry draft (db.nextId + 1) now2, false⟩ : CacheRow)]).filter
        (fun r => !r.synced)).map (fun r => draftOf r.entry))
    rw [List.filter_append, List.filter_append, List.map_append, List.map_append,
      List.count_append, List.count_append]
    simp [draftOf, mkEntry]

/-- Claim C3 counterexample: the cache holds one pending row with local
identifier 1; the remote create succeeds and returns a confirmed entry
with server identifier 42.  After `syncOfflineEntries` no cached row
carries identifier 42 — the pending row is still there, flipped to
confirmed, under its local identifier 1.  The claim's "replaces the
pending row with the returned confirmed entry — ... the new
server-assigned identifier" is false on the SQLite backend, which runs
`UPDATE ... SET synced = 1 WHERE id = ?` with the old local id. -/
theorem syncPending_keeps_local_identifier :
    (∀ r ∈ (syncOfflineEntriesSq st0 c3db c3create
        (.error .network) (.error .network)).2.1.rows, r.entry.id ≠ 42) ∧
    (⟨c3pend, true⟩ : CacheRow) ∈ (syncOfflineEntriesSq st0 c3db c3create
        (.error .network) (.error .network)).2.1.rows := by
  decide

/-- Claim C3 (amended): once the remote create for a pending entry
succeeds, `syncOfflineEntries` marks the row confirmed in place — same
date and content, retaining the local placeholder identifier rather
than adopting the server-assigned one — and a pass in which every
create succeeds leaves zero pending rows in the cache (SQLite backend;
cache identifiers distinct, refresh-fetched identifiers fresh). -/
theorem syncPending_all_success_confirms_in_place (st : FoodState) (db : SqliteDB)
    (create : FoodEntry → Except RemoteErr FoodEntry)
    (fr : Except RemoteErr (List FoodEntry)) (sr : Except RemoteErr MacroSummary)
    (hnodup : (db.rows.map (fun r => r.entry.id)).Nodup)
    (hfresh : freshFor fr db = true)
    (hall : ∀ r ∈ db.rows, r.synced = false → createOk create r = true) :
    (∀ r ∈ db.rows, r.synced = false →
      (⟨r.entry, true⟩ : CacheRow) ∈
        (syncOfflineEntriesSq st db create fr sr).2.1.rows) ∧
    ((syncOfflineEntriesSq st db create fr sr).2.1.rows.filter
      (fun r => !r.synced)) = [] := by
  constructor
  · intro r hr hp
    have hflip := (syncLoopRows_pending_success create db.rows hnodup r hr hp
      (hall r hr hp)).1
    rw [syncSq_rows]
    cases fr with
    | error e => exact hflip
    | ok l =>
        refine foldlUpsert_preserve l ⟨syncLoopRows create db.rows, db.nextId⟩ _ hflip ?_
        intro e' he'
        exact freshFor_ids l db hfresh e' he' r hr
  · have h0 := syncLoopRows_no_pending create db.rows hnodup hall
    rw [syncSq_rows]
    cases fr with
    | error e => exact h0
    | ok l => exact foldlUpsert_no_pending l ⟨syncLoopRows create db.rows, db.nextId⟩ h0

/-- Claim C3 witness: the in-place confirmation at the concrete
one-pending-row scenario. -/
theorem syncPending_all_success_confirms_in_place_witness :
    ((c3db.rows.map (fun r => r.entry.id)).Nodup ∧
     freshFor (.error .network) c3db = true ∧
     (∀ r ∈ c3db.rows, r.synced = false → createOk c3create r = true)) ∧
    ((∀ r ∈ c3db.rows, r.synced = false →
       (⟨r.entry, true⟩ : CacheRow) ∈
         (syncOfflineEntriesSq st0 c3db c3create
           (.error .network) (.error .network)).2.1.rows) ∧
     ((syncOfflineEntriesSq st0 c3db c3create
         (.error .network) (.error .network)).2.1.rows.filter
       (fun r => !r.synced)) = []) :=
  ⟨⟨by decide, by decide, by decide⟩,
   syncPending_all_success_confirms_in_place st0 c3db c3create
     (.error .network) (.error .network) (by decide) (by decide) (by decide)⟩

/-- Claim C8: in one `syncOfflineEntries` pass over the SQLite cache
(identifiers distinct, refresh-fetched identifiers fresh), every
pending row whose remote create succeeds ends up confirmed — even when
creates for other rows fail — and every pending row whose create fails
stays pending: a failure never aborts the processing of the remaining
queue. -/
theorem syncPending_partial_failure_resilience (st : FoodState) (db : SqliteDB)
    (create : FoodEntry → Except RemoteErr FoodEntry)
    (fr : Except RemoteErr (List FoodEntry)) (sr : Except RemoteErr MacroSummary)
    (hnodup : (db.rows.map (fun r => r.entry.id)).Nodup)
    (hfresh : freshFor fr db = true) :
    ∀ r ∈ db.rows, r.synced = false →
      (createOk create r = true →
        (⟨r.entry, true⟩ : CacheRow) ∈
          (syncOfflineEntriesSq st db create fr sr).2.1.rows ∧
        (⟨r.entry, false⟩ : CacheRow) ∉
          (syncOfflineEntriesSq st db create fr sr).2.1.rows) ∧
      (createOk create r = false →
        (⟨r.entry, false⟩ : CacheRow) ∈
          (syncOfflineEntriesSq st db create fr sr).2.1.rows) := by
  intro r hr hp
  rw [syncSq_rows]
  constructor
  · intro hok
    have hloop := syncLoopRows_pending_success create db.rows hnodup r hr hp hok
    cases fr with
    | error e => exact hloop
    | ok l =>
        constructor
        · refine foldlUpsert_preserve l ⟨syncLoopRows create db.rows, db.nextId⟩ _
            hloop.1 ?_
          intro e' he'
          exact freshFor_ids l db hfresh e' he' r hr
        · intro hmem
          exact hloop.2 (foldlUpsert_pending_mem l
            ⟨syncLoopRows create db.rows, db.nextId⟩ _ hmem rfl)
  · intro hfail
    have hloop := syncLoopRows_pending_failure create db.rows hnodup r hr hp hfail
    cases fr with
    | error e => exact hloop
    | ok l =>
        refine foldlUpsert_preserve l ⟨syncLoopRows create db.rows, db.nextId⟩ _
          hloop ?_
        intro e' he'
        exact freshFor_ids l db hfresh e' he' r hr

/-- Claim C8 witness: three pending rows with the second failing
remotely — the first and third become confirmed, the second stays
pending. -/
theorem syncPending_partial_failure_resilience_witness :
    ((c8db.rows.map (fun r => r.entry.id)).Nodup ∧
     freshFor (.error .network) c8db = true) ∧
    (∀ r ∈ c8db.rows, r.synced = false →
      (createOk c8create r = true →
        (⟨r.entry, true⟩ : CacheRow) ∈
          (syncOfflineEntriesSq st0 c8db c8create
            (.error .network) (.error .network)).2.1.rows ∧
        (⟨r.entry, false⟩ : CacheRow) ∉
          (syncOfflineEntriesSq st0 c8db c8create
            (.error .network) (.error .network)).2.1.rows) ∧
      (createOk c8create r = false →
        (⟨r.entry, false⟩ : CacheRow) ∈
          (syncOfflineEntriesSq st0 c8db c8create
            (.error .network) (.error .network)).2.1.rows)) :=
  ⟨⟨by decide, by decide⟩,
   syncPending_partial_failure_resilience st0 c8db c8create
     (.error .network) (.error .network) (by decide) (by decide)⟩

end FoodTracker
